import Mathlib

/-
  Shallow embedding of `src/printer/block.rs` from the viuer repository.

  The block printer renders an RGBA image in a terminal using the Unicode
  half-block glyph: two vertically adjacent pixel rows are packed into one
  terminal row (top pixel = cell background colour, bottom pixel = cell
  foreground colour).  The embedding models the observable output of
  `BlockPrinter::print` as a list of events (cursor moves, colour sets,
  glyph writes, line terminators), with the environment (tty detection,
  cursor-position queries, per-flush I/O results) passed in as explicit
  parameters.
-/

namespace Viuer

/-- Terminal colour: 24-bit RGB triple or an 8-bit palette index
(`termcolor::Color::Rgb` / `Color::Ansi256`). Channels are `u8` in the
source; the claims never exercise overflow, so plain `Nat` is used. -/
inductive Color where
  | rgb (r g b : Nat)
  | ansi256 (n : Nat)
deriving DecidableEq

/-- Modelled from the spec: the external `ansi_colours` crate
(`ansi256_from_rgb`) maps an RGB triple to the nearest entry of the fixed
256-colour terminal palette.  Its exact palette arithmetic is outside this
repository; the claims depend only on it being a deterministic total
function, so the standard xterm 6x6x6 cube approximation stands in. -/
def ansi256_from_rgb (r g b : Nat) : Nat :=
  16 + 36 * (r * 6 / 256) + 6 * (g * 6 / 256) + (b * 6 / 256)

/-- One RGBA sample (`image::Rgba<u8>`): `data[0..3]` = r, g, b, alpha. -/
structure Rgba where
  r : Nat
  g : Nat
  b : Nat
  a : Nat
deriving DecidableEq

/-- `fn is_pixel_transparent(pixel: (u32, u32, Rgba<u8>)) -> bool`:
 true iff the alpha channel (`data[3]`) is 0. -/
def is_pixel_transparent (pixel : Nat × Nat × Rgba) : Bool :=
  pixel.2.2.a == 0

/-- `fn get_transparency_color(row, col, truecolor) -> Color`: the
checkerboard placeholder, darker grey when `row % 2 == col % 2`. -/
def get_transparency_color (row col : Nat) (truecolor : Bool) : Color :=
  let rgb := if row % 2 == col % 2 then (102, 102, 102) else (153, 153, 153)
  if truecolor then Color.rgb rgb.1 rgb.2.1 rgb.2.2
  else Color.ansi256 (ansi256_from_rgb rgb.1 rgb.2.1 rgb.2.2)

/-- `fn get_color_from_pixel(pixel, truecolor) -> Color`: quantize the RGB
channels, ignoring alpha and position. -/
def get_color_from_pixel (pixel : Nat × Nat × Rgba) (truecolor : Bool) : Color :=
  let d := pixel.2.2
  if truecolor then Color.rgb d.r d.g d.b
  else Color.ansi256 (ansi256_from_rgb d.r d.g d.b)

/-- `termcolor::ColorSpec` restricted to the two slots `block.rs` uses:
foreground and background colour (bottom and top pixel of a cell). -/
structure ColorSpec where
  fg : Option Color
  bg : Option Color
deriving DecidableEq

/-- The fields of `viuer::Config` read by `BlockPrinter::print`.
In the source `x : u16` and `y : i16`; the claims never exercise the
16-bit bounds, so `Nat`/`Int` are used. -/
structure Config where
  transparent : Bool
  absolute_offset : Bool
  x : Nat
  y : Int
  truecolor : Bool

/-- `const UPPER_HALF_BLOCK` -/
def UPPER_HALF_BLOCK : String := "▀"

/-- `const LOWER_HALF_BLOCK` -/
def LOWER_HALF_BLOCK : String := "▄"

/-- One observable output action written into the termcolor buffer:
crossterm cursor commands, `set_color` calls, glyph writes and `writeln`
line terminators. -/
inductive OutEvent where
  | moveTo (x y : Nat)
  | moveToPreviousLine (n : Nat)
  | moveToNextLine (n : Nat)
  | moveRight (n : Nat)
  | setColor (c : ColorSpec)
  | write (s : String)
  | newline
deriving DecidableEq

/-- `std::io::ErrorKind`, abstracted to the one kind `print_buffer`
distinguishes (`BrokenPipe`) versus everything else. -/
inductive IOErrorKind where
  | brokenPipe
  | other (n : Nat)
deriving DecidableEq

/-- `viuer::error::ViuError`, restricted to the variants `block.rs` can
produce (the crossterm variant stands for a failed `position()` query). -/
inductive ViuError where
  | InvalidConfiguration (msg : String)
  | ioError (k : IOErrorKind)
  | Crossterm
deriving DecidableEq

/-- The state of the output side of `BlockPrinter::print`:
`out_buffer` is the termcolor `Buffer` content accumulated since the last
successful flush, `emitted` is everything `stdout.print` has committed to
the terminal, `flushCount` counts the `print_buffer` calls made so far
(used to index the environment's per-flush results). -/
structure PrintState where
  out_buffer : List OutEvent
  emitted : List OutEvent
  flushCount : Nat
deriving DecidableEq

/-- Append events to the pending termcolor buffer (an `execute!`,
`write!` or `set_color` call lands here, not on the terminal). -/
def PrintState.push (st : PrintState) (es : List OutEvent) : PrintState :=
  { st with out_buffer := st.out_buffer ++ es }

/-- `fn print_buffer(stdout, out_buffer) -> ViuResult`: try to commit the
buffer.  On success the buffer is cleared; a `BrokenPipe` failure is
swallowed (`Ok(())`) and — exactly as in the source — the buffer is NOT
cleared; any other I/O error propagates.  The environment's result for
this flush attempt is `res` (`none` = success). -/
def print_buffer (res : Option IOErrorKind) (st : PrintState) :
    Except ViuError PrintState :=
  match res with
  | none =>
    .ok { out_buffer := []
          emitted := st.emitted ++ st.out_buffer
          flushCount := st.flushCount + 1 }
  | some IOErrorKind.brokenPipe =>
    .ok { st with flushCount := st.flushCount + 1 }
  | some k => .error (ViuError.ioError k)

/-- The result of a successful flush, as a function (helper for stating
`print_buffer` facts). -/
def flushOk (st : PrintState) : PrintState :=
  { out_buffer := []
    emitted := st.emitted ++ st.out_buffer
    flushCount := st.flushCount + 1 }

/-- The per-cell body of the loop in `fill_out_buffer`: the events one
`ColorSpec` cell contributes (a `set_color` + glyph write, or a
cursor-right skip).  Mirrors the `is_last_row` branch and the
`match (c.fg(), c.bg())` table of the source. -/
def cellEvents (is_last_row : Bool) (c : ColorSpec) : List OutEvent :=
  if is_last_row then
    match c.bg with
    | some bg => [.setColor ⟨some bg, none⟩, .write UPPER_HALF_BLOCK]
    | none => [.moveRight 1]
  else
    match c.fg, c.bg with
    | none, none => [.moveRight 1]
    | some bottom, none => [.setColor ⟨some bottom, none⟩, .write LOWER_HALF_BLOCK]
    | none, some top => [.setColor ⟨some top, none⟩, .write UPPER_HALF_BLOCK]
    | some f, some b => [.setColor ⟨some f, some b⟩, .write LOWER_HALF_BLOCK]

/-- The `for c in row_buffer.iter()` loop of `fill_out_buffer`. -/
def cellsRender (is_last_row : Bool) : List ColorSpec → List OutEvent
  | [] => []
  | c :: rest => cellEvents is_last_row c ++ cellsRender is_last_row rest

/-- `fn fill_out_buffer(row_buffer, out_buffer, is_last_row)`: render every
cell, then `clear_printer` (a `set_color` with the empty `ColorSpec`, i.e.
a style reset) and a `writeln!` line terminator.  The source also clears
`row_buffer`; in this pure model the caller installs the emptied row
buffer. -/
def fill_out_buffer (row_buffer : List ColorSpec) (out_buffer : List OutEvent)
    (is_last_row : Bool) : List OutEvent :=
  out_buffer ++ cellsRender is_last_row row_buffer
    ++ [.setColor ⟨none, none⟩, .newline]

/-- The `Mode` enum: whether the current pixel row lands in cell
backgrounds (`Top`) or foregrounds (`Bottom`). -/
inductive Mode where
  | top
  | bottom
deriving DecidableEq

/-- The decoded pixel grid handed to the printer: dimensions plus a lookup
`pixelAt x y` (column, row) for the RGBA sample. -/
structure Image where
  width : Nat
  height : Nat
  pixelAt : Nat → Nat → Rgba

/-- `n` pixels of row `y` starting at column `x`, in the raster order of
`image::GenericImageView::pixels` (each item is `(x, y, rgba)`). -/
def pixelsFrom (img : Image) (y : Nat) : Nat → Nat → List (Nat × Nat × Rgba)
  | _, 0 => []
  | x, Nat.succ n => (x, y, img.pixelAt x y) :: pixelsFrom img y (x + 1) n

/-- `k` full pixel rows starting at row `y`, row-major. -/
def rowsFrom (img : Image) : Nat → Nat → List (Nat × Nat × Rgba)
  | _, 0 => []
  | y, Nat.succ k => pixelsFrom img y 0 img.width ++ rowsFrom img (y + 1) k

/-- `img.pixels()`: the full raster-order pixel stream. -/
def Image.pixels (img : Image) : List (Nat × Nat × Rgba) :=
  rowsFrom img 0 img.height

/-- The mutable state of the pixel loop in `BlockPrinter::print`. -/
structure LoopState where
  curr_col_px : Nat
  curr_row_px : Nat
  row_buffer : List ColorSpec
  mode : Mode
  ps : PrintState

/-- The colour resolved for one pixel (the `let color = ...` at the top of
the loop): transparent pixels give `None` under `config.transparent`,
otherwise the checkerboard placeholder; opaque pixels are quantized. -/
def resolvePixelColor (config : Config) (row col : Nat)
    (pixel : Nat × Nat × Rgba) : Option Color :=
  if is_pixel_transparent pixel then
    if config.transparent then none
    else some (get_transparency_color row col config.truecolor)
  else some (get_color_from_pixel pixel config.truecolor)

/-- Set the `fg` slot of the cell at index `i`
(`row_buffer[curr_col_px].set_fg(color)`; out-of-range is unreachable in
`print`, where the index is always below the buffer length). -/
def setFgAt : List ColorSpec → Nat → Option Color → List ColorSpec
  | [], _, _ => []
  | c :: rest, 0, color => { c with fg := color } :: rest
  | c :: rest, Nat.succ n, color => c :: setFgAt rest n color

/-- One iteration of the `for pixel in img.pixels()` loop.  `fr` is the
environment's list of per-flush I/O results (indexed by `flushCount`,
missing entries meaning success).  A failed flush aborts the loop with the
error and the buffer state at that point (the `?` operator). -/
def processPixel (config : Config) (fr : List (Option IOErrorKind))
    (width : Nat) (st : LoopState) (pixel : Nat × Nat × Rgba) :
    Except (ViuError × PrintState) LoopState :=
  let color := resolvePixelColor config st.curr_row_px st.curr_col_px pixel
  let row_buffer :=
    if st.mode = Mode.top then st.row_buffer ++ [⟨none, color⟩]
    else setFgAt st.row_buffer st.curr_col_px color
  let curr_col_px := st.curr_col_px + 1
  if row_buffer.length = width then
    if st.mode = Mode.top then
      .ok { st with
            mode := Mode.bottom
            curr_col_px := 0
            curr_row_px := st.curr_row_px + 1
            row_buffer := row_buffer }
    else if curr_col_px = width then
      let ps := if 0 < config.x then st.ps.push [.moveRight config.x] else st.ps
      let ps : PrintState :=
        { ps with out_buffer := fill_out_buffer row_buffer ps.out_buffer false }
      match print_buffer (fr.getD ps.flushCount none) ps with
      | .error e => .error (e, ps)
      | .ok ps' =>
        .ok { curr_col_px := 0
              curr_row_px := st.curr_row_px + 1
              row_buffer := []
              mode := Mode.top
              ps := ps' }
    else
      .ok { st with curr_col_px := curr_col_px, row_buffer := row_buffer }
  else
    .ok { st with curr_col_px := curr_col_px, row_buffer := row_buffer }

/-- The pixel loop itself (a `for` with `?`-style early return). -/
def runLoop (config : Config) (fr : List (Option IOErrorKind)) (width : Nat) :
    LoopState → List (Nat × Nat × Rgba) → Except (ViuError × PrintState) LoopState
  | st, [] => .ok st
  | st, px :: rest =>
    match processPixel config fr width st px with
    | .error e => .error e
    | .ok st' => runLoop config fr width st' rest

/-- Outcome of a `print` call: `res = none` models `Ok(())`; `st` holds
what was emitted to the terminal, what is still buffered, and how many
flushes were attempted. -/
structure PrintOutcome where
  res : Option ViuError
  st : PrintState
deriving DecidableEq

/-- `fn print_buffer` at the very end of `BlockPrinter::print` (the final
flush, whose result is the function's return value). -/
def finishFlush (fr : List (Option IOErrorKind)) (st : PrintState) : PrintOutcome :=
  match print_buffer (fr.getD st.flushCount none) st with
  | .error e => ⟨some e, st⟩
  | .ok st' => ⟨none, st'⟩

/-- The tail of `BlockPrinter::print` after the pixel loop and the
odd-height flush: the cursor-drift correction (re-querying `position()`,
whose environment answer is `newPosRes`; `none` models a failed query
propagated by `?`), then the final flush. -/
def printTail (config : Config) (isTty : Bool)
    (cursor_pos newPosRes : Option (Nat × Nat))
    (fr : List (Option IOErrorKind)) (st1 : PrintState) : PrintOutcome :=
  if !config.absolute_offset && isTty then
    match cursor_pos with
    | some p =>
      match newPosRes with
      | none => ⟨some ViuError.Crossterm, st1⟩
      | some q =>
        finishFlush fr (if q.2 < p.2 then st1.push [.moveToNextLine (p.2 - q.2)] else st1)
    | none => finishFlush fr st1
  else finishFlush fr st1

/-- Everything in `BlockPrinter::print` after the y-offset adjustment:
the pixel loop, the odd-height flush of a non-empty `row_buffer`, then
`printTail`. -/
def printBody (img : Image) (config : Config) (isTty : Bool)
    (cursor_pos newPosRes : Option (Nat × Nat))
    (fr : List (Option IOErrorKind)) (st : PrintState) : PrintOutcome :=
  match runLoop config fr img.width ⟨0, 0, [], Mode.top, st⟩ img.pixels with
  | .error (e, ps) => ⟨some e, ps⟩
  | .ok lst =>
    let st1 :=
      if lst.row_buffer.isEmpty then lst.ps
      else { lst.ps with
             out_buffer := fill_out_buffer lst.row_buffer lst.ps.out_buffer true }
    printTail config isTty cursor_pos newPosRes fr st1

/-- `BlockPrinter::print`.  Environment parameters: `isTty` is
`stdout().is_tty()`, `posRes` the answer of the initial `position().ok()`,
`newPosRes` the answer of the post-render `position()`, `fr` the
per-flush I/O results (missing entries = success). -/
def print (img : Image) (config : Config) (isTty : Bool)
    (posRes newPosRes : Option (Nat × Nat))
    (fr : List (Option IOErrorKind)) : PrintOutcome :=
  let st0 : PrintState := ⟨[], [], 0⟩
  let cursor_pos := if !config.absolute_offset && isTty then posRes else none
  if config.absolute_offset then
    if 0 ≤ config.y then
      printBody img config isTty cursor_pos newPosRes fr
        (st0.push [.moveTo 0 config.y.toNat])
    else
      ⟨some (ViuError.InvalidConfiguration
        ("absolute_offset is true but y offset is negative")), st0⟩
  else if config.y < 0 then
    printBody img config isTty cursor_pos newPosRes fr
      (st0.push [.moveToPreviousLine (-config.y).toNat])
  else
    printBody img config isTty cursor_pos newPosRes fr
      (st0.push (List.replicate config.y.toNat .newline))

/-! ### Measures and decompositions of the output stream -/

/-- Is the event the `writeln!` line terminator? -/
def isNewline : OutEvent → Bool
  | .newline => true
  | _ => false

/-- Is the event the `clear_printer` style reset, i.e. a `set_color` with
the empty `ColorSpec`? -/
def isReset : OutEvent → Bool
  | .setColor ⟨none, none⟩ => true
  | _ => false

/-- Is the event a `set_color` carrying an actual colour (not a reset)? -/
def isColorSet : OutEvent → Bool
  | .setColor ⟨none, none⟩ => false
  | .setColor _ => true
  | _ => false

/-- Is the event any `set_color` call at all? -/
def isSetColorOp : OutEvent → Bool
  | .setColor _ => true
  | _ => false

/-- Is the event a glyph write? -/
def isGlyph : OutEvent → Bool
  | .write _ => true
  | _ => false

/-- Is the event a cursor-right move? -/
def isCursorRight : OutEvent → Bool
  | .moveRight _ => true
  | _ => false

/-- The property claim C7 asserts of every event of the final terminal
row of an odd-height image: any glyph written is the upper-half glyph
(never the lower half), and any `set_color` carries no background colour
(never the combined background+foreground form).  Cursor moves and line
boundaries satisfy it trivially. -/
def lastRowOk : OutEvent → Bool
  | .write s => s == UPPER_HALF_BLOCK
  | .setColor c => c.bg == none
  | _ => true

/-- The events after the last line terminator of `es`, starting from the
partial chunk `acc` (helper for `rowsOf`). -/
def lastAcc : List OutEvent → List OutEvent → List OutEvent
  | acc, [] => acc
  | _, .newline :: rest => lastAcc [] rest
  | acc, e :: rest => lastAcc (acc ++ [e]) rest

/-- Split an event stream into its line-terminated chunks; `acc` is the
chunk under construction, and a trailing unterminated chunk is dropped. -/
def rowsOfAux : List OutEvent → List OutEvent → List (List OutEvent)
  | _, [] => []
  | acc, .newline :: rest => acc :: rowsOfAux [] rest
  | acc, e :: rest => rowsOfAux (acc ++ [e]) rest

/-- The terminal rows of an event stream: the maximal chunks terminated by
a line terminator (the terminator itself not included). -/
def rowsOf (es : List OutEvent) : List (List OutEvent) := rowsOfAux [] es

/-! ### Closed forms for the states and streams `print` produces -/

/-- The cell the `Top` pass builds for pixel `(x, r)`: colour in the
background slot, foreground still unset. -/
def topCell (img : Image) (config : Config) (r x : Nat) : ColorSpec :=
  ⟨none, resolvePixelColor config r x (x, r, img.pixelAt x r)⟩

/-- The completed cell for column `x` of the terminal row covering pixel
rows `r` and `r + 1`. -/
def pairCell (img : Image) (config : Config) (r x : Nat) : ColorSpec :=
  ⟨resolvePixelColor config (r + 1) x (x, r + 1, img.pixelAt x (r + 1)),
    resolvePixelColor config r x (x, r, img.pixelAt x r)⟩

/-- `n` top-pass cells for pixel row `r`, columns `j, j+1, ...`. -/
def topCellsFrom (img : Image) (config : Config) (r : Nat) :
    Nat → Nat → List ColorSpec
  | _, 0 => []
  | j, Nat.succ n => topCell img config r j :: topCellsFrom img config r (j + 1) n

/-- `n` completed cells for the row pair starting at pixel row `r`,
columns `j, j+1, ...`. -/
def pairCellsFrom (img : Image) (config : Config) (r : Nat) :
    Nat → Nat → List ColorSpec
  | _, 0 => []
  | j, Nat.succ n => pairCell img config r j :: pairCellsFrom img config r (j + 1) n

/-- The events one completed terminal row (pixel rows `y`, `y+1`)
contributes to the output: the optional x-offset cursor move, the rendered
cells, the style reset and the line terminator. -/
def rowEvts (img : Image) (config : Config) (y : Nat) : List OutEvent :=
  (if 0 < config.x then [.moveRight config.x] else [])
    ++ cellsRender false (pairCellsFrom img config y 0 img.width)
    ++ [.setColor ⟨none, none⟩, .newline]

/-- The events of `m` consecutive completed terminal rows starting at
pixel row `y`. -/
def evtsRowsFrom (img : Image) (config : Config) : Nat → Nat → List OutEvent
  | _, 0 => []
  | y, Nat.succ m => rowEvts img config y ++ evtsRowsFrom img config (y + 2) m

/-- The `PrintState` after `m` completed terminal rows (each one pushed
and successfully flushed), starting from `ps` at pixel row `y`. -/
def psAfterRows (img : Image) (config : Config) :
    PrintState → Nat → Nat → PrintState
  | ps, _, 0 => ps
  | ps, y, Nat.succ m =>
    psAfterRows img config (flushOk (ps.push (rowEvts img config y))) (y + 2) m

/-- The events of the final, top-only terminal row of an odd-height image
(pixel row `r`), as produced by `fill_out_buffer` with `is_last_row`:
no x-offset move precedes it. -/
def lastRowEvts (img : Image) (config : Config) (r : Nat) : List OutEvent :=
  cellsRender true (topCellsFrom img config r 0 img.width)
    ++ [.setColor ⟨none, none⟩, .newline]

/-- The events of the y-offset adjustment preceding the pixel loop
(meaningful when the configuration is not rejected). -/
def setupEvents (config : Config) : List OutEvent :=
  if config.absolute_offset then [.moveTo 0 config.y.toNat]
  else if config.y < 0 then [.moveToPreviousLine (-config.y).toNat]
  else List.replicate config.y.toNat .newline

/-- The events of the post-render cursor correction. -/
def corrEvents (config : Config) (isTty : Bool)
    (posRes newPosRes : Option (Nat × Nat)) : List OutEvent :=
  if !config.absolute_offset && isTty then
    match posRes with
    | some p =>
      match newPosRes with
      | some q => if q.2 < p.2 then [.moveToNextLine (p.2 - q.2)] else []
      | none => []
    | none => []
  else []

/-- The full terminal output of a successful `print` call in an
environment where every flush succeeds. -/
def fullEmitted (img : Image) (config : Config) (isTty : Bool)
    (posRes newPosRes : Option (Nat × Nat)) : List OutEvent :=
  setupEvents config
    ++ evtsRowsFrom img config 0 (img.height / 2)
    ++ (if img.height % 2 = 1 then lastRowEvts img config (2 * (img.height / 2)) else [])
    ++ corrEvents config isTty posRes newPosRes

/-! ### Concrete fixtures used by witnesses and counterexamples -/

/-- A 1x1 fully opaque red image. -/
def imgRed1x1 : Image := ⟨1, 1, fun _ _ => ⟨255, 0, 0, 255⟩⟩

/-- A 1x2 fully opaque red image. -/
def imgRed1x2 : Image := ⟨1, 2, fun _ _ => ⟨255, 0, 0, 255⟩⟩

/-- A 1x1 fully transparent image. -/
def imgClear1x1 : Image := ⟨1, 1, fun _ _ => ⟨0, 0, 0, 0⟩⟩

/-- A 1x1 image with fixed RGB and a chosen alpha. -/
def imgAlpha (a : Nat) : Image := ⟨1, 1, fun _ _ => ⟨10, 20, 30, a⟩⟩

/-- Relative offsets disabled, truecolor: the plainest configuration. -/
def cfgPlain : Config := ⟨false, false, 0, 0, true⟩

/-- `cfgPlain` with `transparent` set. -/
def cfgTransparent : Config := ⟨true, false, 0, 0, true⟩

/-- `cfgPlain` with `x = 5`. -/
def cfgX5 : Config := ⟨false, false, 5, 0, true⟩

/-- `absolute_offset` with a negative `y`: the rejected configuration. -/
def cfgAbsNeg : Config := ⟨false, true, 0, -1, true⟩

/-! ## Basic lemmas about the helper functions -/

theorem setFgAt_length (rb : List ColorSpec) (i : Nat) (v : Option Color) :
    (setFgAt rb i v).length = rb.length := by
  induction rb generalizing i with
  | nil => rfl
  | cons c rest ih =>
    cases i with
    | zero => rfl
    | succ n => simp [setFgAt, ih]

theorem setFgAt_append (A : List ColorSpec) (c : ColorSpec) (B : List ColorSpec)
    (v : Option Color) :
    setFgAt (A ++ c :: B) A.length v = A ++ { c with fg := v } :: B := by
  induction A with
  | nil => rfl
  | cons a A ih => simp [setFgAt, ih]

theorem setFgAt_append_at (A : List ColorSpec) (c : ColorSpec) (B : List ColorSpec)
    (v : Option Color) (j : Nat) (h : A.length = j) :
    setFgAt (A ++ c :: B) j v = A ++ { c with fg := v } :: B := by
  subst h
  exact setFgAt_append A c B v

theorem topCellsFrom_snoc (img : Image) (config : Config) (r : Nat) :
    ∀ n j, topCellsFrom img config r j (n + 1)
      = topCellsFrom img config r j n ++ [topCell img config r (j + n)] := by
  intro n
  induction n with
  | zero => intro j; simp [topCellsFrom]
  | succ n ih =>
    intro j
    have h1 : topCellsFrom img config r j (n + 1 + 1)
        = topCell img config r j :: topCellsFrom img config r (j + 1) (n + 1) := rfl
    rw [h1, ih]
    have h2 : topCellsFrom img config r j (n + 1)
        = topCell img config r j :: topCellsFrom img config r (j + 1) n := rfl
    rw [h2]
    simp [Nat.add_assoc, Nat.add_comm 1 n]

theorem pairCellsFrom_snoc (img : Image) (config : Config) (r : Nat) :
    ∀ n j, pairCellsFrom img config r j (n + 1)
      = pairCellsFrom img config r j n ++ [pairCell img config r (j + n)] := by
  intro n
  induction n with
  | zero => intro j; simp [pairCellsFrom]
  | succ n ih =>
    intro j
    have h1 : pairCellsFrom img config r j (n + 1 + 1)
        = pairCell img config r j :: pairCellsFrom img config r (j + 1) (n + 1) := rfl
    rw [h1, ih]
    have h2 : pairCellsFrom img config r j (n + 1)
        = pairCell img config r j :: pairCellsFrom img config r (j + 1) n := rfl
    rw [h2]
    simp [Nat.add_assoc, Nat.add_comm 1 n]

theorem topCellsFrom_length (img : Image) (config : Config) (r : Nat) :
    ∀ n j, (topCellsFrom img config r j n).length = n := by
  intro n
  induction n with
  | zero => intro j; rfl
  | succ n ih => intro j; simp [topCellsFrom, ih]

theorem pairCellsFrom_length (img : Image) (config : Config) (r : Nat) :
    ∀ n j, (pairCellsFrom img config r j n).length = n := by
  intro n
  induction n with
  | zero => intro j; rfl
  | succ n ih => intro j; simp [pairCellsFrom, ih]

theorem runLoop_append (config : Config) (fr : List (Option IOErrorKind))
    (width : Nat) (l1 l2 : List (Nat × Nat × Rgba)) (st : LoopState) :
    runLoop config fr width st (l1 ++ l2)
      = match runLoop config fr width st l1 with
        | .ok st' => runLoop config fr width st' l2
        | .error e => .error e := by
  induction l1 generalizing st with
  | nil => simp [runLoop]
  | cons px rest ih =>
    simp only [List.cons_append, runLoop]
    cases processPixel config fr width st px with
    | error e => rfl
    | ok st' => exact ih st'

/-! ## Single-step characterizations of the pixel loop -/

theorem processPixel_top_mid (config : Config) (fr : List (Option IOErrorKind))
    (width j r : Nat) (rb : List ColorSpec) (ps : PrintState)
    (px : Nat × Nat × Rgba) (h : rb.length + 1 ≠ width) :
    processPixel config fr width ⟨j, r, rb, Mode.top, ps⟩ px
      = .ok ⟨j + 1, r, rb ++ [⟨none, resolvePixelColor config r j px⟩], Mode.top, ps⟩ := by
  simp [processPixel, h]

theorem processPixel_top_last (config : Config) (fr : List (Option IOErrorKind))
    (width j r : Nat) (rb : List ColorSpec) (ps : PrintState)
    (px : Nat × Nat × Rgba) (h : rb.length + 1 = width) :
    processPixel config fr width ⟨j, r, rb, Mode.top, ps⟩ px
      = .ok ⟨0, r + 1, rb ++ [⟨none, resolvePixelColor config r j px⟩], Mode.bottom, ps⟩ := by
  simp [processPixel, h]

theorem processPixel_bottom_mid (config : Config) (fr : List (Option IOErrorKind))
    (width j r : Nat) (rb : List ColorSpec) (ps : PrintState)
    (px : Nat × Nat × Rgba) (hlen : rb.length = width) (hcol : j + 1 ≠ width) :
    processPixel config fr width ⟨j, r, rb, Mode.bottom, ps⟩ px
      = .ok ⟨j + 1, r, setFgAt rb j (resolvePixelColor config r j px), Mode.bottom, ps⟩ := by
  simp [processPixel, setFgAt_length, hlen, hcol]

theorem processPixel_bottom_last (config : Config)
    (width j r : Nat) (rb : List ColorSpec) (ps : PrintState)
    (px : Nat × Nat × Rgba) (hlen : rb.length = width) (hcol : j + 1 = width) :
    processPixel config [] width ⟨j, r, rb, Mode.bottom, ps⟩ px
      = .ok ⟨0, r + 1, [], Mode.top,
          flushOk (ps.push ((if 0 < config.x then [.moveRight config.x] else [])
            ++ cellsRender false (setFgAt rb j (resolvePixelColor config r j px))
            ++ [.setColor ⟨none, none⟩, .newline]))⟩ := by
  cases hx : decide (0 < config.x) with
  | true =>
    have hx' : 0 < config.x := of_decide_eq_true hx
    simp [processPixel, setFgAt_length, hlen, hcol, hx', print_buffer, List.getD,
      flushOk, PrintState.push, fill_out_buffer, List.append_assoc]
  | false =>
    have hx' : ¬ 0 < config.x := of_decide_eq_false hx
    simp [processPixel, setFgAt_length, hlen, hcol, hx', print_buffer, List.getD,
      flushOk, PrintState.push, fill_out_buffer, List.append_assoc]

/-! ## Row-level characterizations of the pixel loop -/

theorem runLoop_top_row (config : Config) (fr : List (Option IOErrorKind))
    (img : Image) (r : Nat) (ps : PrintState) :
    ∀ n j, j + n = img.width → 0 < n →
    runLoop config fr img.width ⟨j, r, topCellsFrom img config r 0 j, Mode.top, ps⟩
        (pixelsFrom img r j n)
      = .ok ⟨0, r + 1, topCellsFrom img config r 0 img.width, Mode.bottom, ps⟩ := by
  intro n
  induction n with
  | zero => intro j _ hn; exact absurd hn (by omega)
  | succ n ih =>
    intro j hjn _
    have hpx : pixelsFrom img r j (n + 1)
        = (j, r, img.pixelAt j r) :: pixelsFrom img r (j + 1) n := rfl
    have hsnoc : topCellsFrom img config r 0 j
          ++ [⟨none, resolvePixelColor config r j (j, r, img.pixelAt j r)⟩]
        = topCellsFrom img config r 0 (j + 1) := by
      rw [topCellsFrom_snoc]
      simp [topCell]
    have hlen : (topCellsFrom img config r 0 j).length = j :=
      topCellsFrom_length img config r j 0
    rw [hpx]
    simp only [runLoop]
    cases n with
    | zero =>
      have hw : j + 1 = img.width := by omega
      rw [processPixel_top_last config fr img.width j r _ ps _ (by rw [hlen]; exact hw)]
      simp only [hsnoc, hw]
      rfl
    | succ n' =>
      rw [processPixel_top_mid config fr img.width j r _ ps _ (by rw [hlen]; omega)]
      simp only [hsnoc]
      exact ih (j + 1) (by omega) (by omega)

theorem runLoop_bottom_row (config : Config) (img : Image) (r : Nat) (ps : PrintState) :
    ∀ n j, j + n = img.width → 0 < n →
    runLoop config [] img.width
        ⟨j, r + 1, pairCellsFrom img config r 0 j ++ topCellsFrom img config r j n,
          Mode.bottom, ps⟩
        (pixelsFrom img (r + 1) j n)
      = .ok ⟨0, r + 2, [], Mode.top, flushOk (ps.push (rowEvts img config r))⟩ := by
  intro n
  induction n with
  | zero => intro j _ hn; exact absurd hn (by omega)
  | succ n ih =>
    intro j hjn _
    have hpx : pixelsFrom img (r + 1) j (n + 1)
        = (j, r + 1, img.pixelAt j (r + 1)) :: pixelsFrom img (r + 1) (j + 1) n := rfl
    have hplen : (pairCellsFrom img config r 0 j).length = j :=
      pairCellsFrom_length img config r j 0
    have htlen : (topCellsFrom img config r j (n + 1)).length = n + 1 :=
      topCellsFrom_length img config r (n + 1) j
    have hlen : (pairCellsFrom img config r 0 j ++ topCellsFrom img config r j (n + 1)).length
        = img.width := by
      rw [List.length_append, hplen, htlen]; omega
    have hcons : topCellsFrom img config r j (n + 1)
        = topCell img config r j :: topCellsFrom img config r (j + 1) n := rfl
    have hupd : setFgAt (pairCellsFrom img config r 0 j ++ topCellsFrom img config r j (n + 1)) j
          (resolvePixelColor config (r + 1) j (j, r + 1, img.pixelAt j (r + 1)))
        = pairCellsFrom img config r 0 (j + 1) ++ topCellsFrom img config r (j + 1) n := by
      rw [hcons, setFgAt_append_at _ _ _ _ j hplen, pairCellsFrom_snoc]
      have hcell : { topCell img config r j with
            fg := resolvePixelColor config (r + 1) j (j, r + 1, img.pixelAt j (r + 1)) }
          = pairCell img config r j := rfl
      simp [hcell]
    rw [hpx]
    simp only [runLoop]
    cases n with
    | zero =>
      have hw : j + 1 = img.width := by omega
      rw [processPixel_bottom_last config img.width j (r + 1) _ ps _ hlen hw]
      have hfull : pairCellsFrom img config r 0 (j + 1) ++ topCellsFrom img config r (j + 1) 0
          = pairCellsFrom img config r 0 img.width := by
        rw [show topCellsFrom img config r (j + 1) 0 = [] from rfl, List.append_nil, hw]
      rw [show (⟨0, r + 1 + 1, [], Mode.top,
            flushOk (ps.push ((if 0 < config.x then [OutEvent.moveRight config.x] else [])
              ++ cellsRender false (setFgAt (pairCellsFrom img config r 0 j
                    ++ topCellsFrom img config r j 1) j
                  (resolvePixelColor config (r + 1) j (j, r + 1, img.pixelAt j (r + 1))))
              ++ [OutEvent.setColor ⟨none, none⟩, OutEvent.newline]))⟩ : LoopState)
          = ⟨0, r + 2, [], Mode.top, flushOk (ps.push (rowEvts img config r))⟩ from ?_]
      · rfl
      · rw [hupd, hfull]
        rfl
    | succ n' =>
      rw [processPixel_bottom_mid config [] img.width j (r + 1) _ ps _ hlen (by omega)]
      rw [hupd]
      exact ih (j + 1) (by omega) (by omega)

theorem rowsFrom_add (img : Image) : ∀ a b y,
    rowsFrom img y (a + b) = rowsFrom img y a ++ rowsFrom img (y + a) b := by
  intro a
  induction a with
  | zero => intro b y; simp [rowsFrom]
  | succ a ih =>
    intro b y
    have h1 : a + 1 + b = (a + b) + 1 := by omega
    rw [h1]
    show pixelsFrom img y 0 img.width ++ rowsFrom img (y + 1) (a + b)
      = (pixelsFrom img y 0 img.width ++ rowsFrom img (y + 1) a) ++ rowsFrom img (y + (a + 1)) b
    rw [ih b (y + 1), List.append_assoc]
    have h2 : y + 1 + a = y + (a + 1) := by omega
    rw [h2]

theorem runLoop_row_pair (config : Config) (img : Image) (hw : 0 < img.width)
    (y : Nat) (ps : PrintState) :
    runLoop config [] img.width ⟨0, y, [], Mode.top, ps⟩ (rowsFrom img y 2)
      = .ok ⟨0, y + 2, [], Mode.top, flushOk (ps.push (rowEvts img config y))⟩ := by
  have hrows : rowsFrom img y 2
      = pixelsFrom img y 0 img.width ++ (pixelsFrom img (y + 1) 0 img.width ++ []) := rfl
  have hTop := runLoop_top_row config [] img y ps img.width 0 (by omega) hw
  rw [show topCellsFrom img config y 0 0 = ([] : List ColorSpec) from rfl] at hTop
  have hBot := runLoop_bottom_row config img y ps img.width 0 (by omega) hw
  rw [show pairCellsFrom img config y 0 0 = ([] : List ColorSpec) from rfl,
    List.nil_append] at hBot
  rw [hrows, runLoop_append, hTop]
  show runLoop config [] img.width
      ⟨0, y + 1, topCellsFrom img config y 0 img.width, Mode.bottom, ps⟩
      (pixelsFrom img (y + 1) 0 img.width ++ []) = _
  rw [List.append_nil]
  exact hBot

theorem runLoop_even_rows (config : Config) (img : Image) (hw : 0 < img.width) :
    ∀ m y ps, runLoop config [] img.width ⟨0, y, [], Mode.top, ps⟩ (rowsFrom img y (2 * m))
      = .ok ⟨0, y + 2 * m, [], Mode.top, psAfterRows img config ps y m⟩ := by
  intro m
  induction m with
  | zero => intro y ps; simp [rowsFrom, runLoop, psAfterRows]
  | succ m ih =>
    intro y ps
    have h1 : 2 * (m + 1) = 2 + 2 * m := by omega
    rw [h1, rowsFrom_add img 2 (2 * m) y, runLoop_append]
    rw [runLoop_row_pair config img hw y ps]
    show runLoop config [] img.width
        ⟨0, y + 2, [], Mode.top, flushOk (ps.push (rowEvts img config y))⟩
        (rowsFrom img (y + 2) (2 * m)) = _
    rw [ih (y + 2) (flushOk (ps.push (rowEvts img config y)))]
    have h2 : y + 2 + 2 * m = y + (2 + 2 * m) := by omega
    rw [h2]
    rfl

theorem topCellsFrom_isEmpty_false (img : Image) (config : Config) (r j n : Nat)
    (hn : 0 < n) : (topCellsFrom img config r j n).isEmpty = false := by
  cases n with
  | zero => exact absurd hn (by omega)
  | succ n => rfl

theorem runLoop_all_even (config : Config) (img : Image) (hw : 0 < img.width)
    (heven : img.height % 2 = 0) (st : PrintState) :
    runLoop config [] img.width ⟨0, 0, [], Mode.top, st⟩ img.pixels
      = .ok ⟨0, img.height, [], Mode.top, psAfterRows img config st 0 (img.height / 2)⟩ := by
  have h := runLoop_even_rows config img hw (img.height / 2) 0 st
  have h2 : 2 * (img.height / 2) = img.height := by omega
  rw [h2] at h
  simp only [Nat.zero_add] at h
  show runLoop config [] img.width ⟨0, 0, [], Mode.top, st⟩ (rowsFrom img 0 img.height) = _
  exact h

theorem runLoop_all_odd (config : Config) (img : Image) (hw : 0 < img.width)
    (hodd : img.height % 2 = 1) (st : PrintState) :
    runLoop config [] img.width ⟨0, 0, [], Mode.top, st⟩ img.pixels
      = .ok ⟨0, img.height,
          topCellsFrom img config (2 * (img.height / 2)) 0 img.width, Mode.bottom,
          psAfterRows img config st 0 (img.height / 2)⟩ := by
  obtain ⟨m, hm⟩ : ∃ m, img.height / 2 = m := ⟨_, rfl⟩
  have h1 : img.height = 2 * m + 1 := by omega
  have hsplit : rowsFrom img 0 img.height
      = rowsFrom img 0 (2 * m) ++ rowsFrom img (2 * m) 1 := by
    rw [h1, rowsFrom_add img (2 * m) 1 0]
    simp
  rw [hm]
  show runLoop config [] img.width ⟨0, 0, [], Mode.top, st⟩ (rowsFrom img 0 img.height) = _
  rw [hsplit, runLoop_append]
  have h := runLoop_even_rows config img hw m 0 st
  simp only [Nat.zero_add] at h
  rw [h]
  show runLoop config [] img.width
      ⟨0, 2 * m, [], Mode.top, psAfterRows img config st 0 m⟩
      (rowsFrom img (2 * m) 1) = _
  have hrow : rowsFrom img (2 * m) 1
      = pixelsFrom img (2 * m) 0 img.width ++ [] := rfl
  have hTop := runLoop_top_row config [] img (2 * m)
    (psAfterRows img config st 0 m) img.width 0 (by omega) hw
  rw [show topCellsFrom img config (2 * m) 0 0 = ([] : List ColorSpec) from rfl]
    at hTop
  rw [hrow, List.append_nil, hTop]
  have h3 : 2 * m + 1 = img.height := by omega
  rw [h3]

theorem printBody_step (img : Image) (config : Config) (isTty : Bool)
    (cursor_pos newPosRes : Option (Nat × Nat)) (fr : List (Option IOErrorKind))
    (st : PrintState) (lst : LoopState)
    (h : runLoop config fr img.width ⟨0, 0, [], Mode.top, st⟩ img.pixels = .ok lst) :
    printBody img config isTty cursor_pos newPosRes fr st
      = printTail config isTty cursor_pos newPosRes fr
          (if lst.row_buffer.isEmpty then lst.ps
           else { lst.ps with
                  out_buffer := fill_out_buffer lst.row_buffer lst.ps.out_buffer true }) := by
  simp only [printBody, h]

theorem printTail_shape (config : Config) (isTty : Bool)
    (cursor_pos newPosRes : Option (Nat × Nat)) (st1 : PrintState)
    (hpos : (!config.absolute_offset && isTty) = true →
      cursor_pos.isSome = true → newPosRes.isSome = true) :
    printTail config isTty cursor_pos newPosRes [] st1
      = ⟨none, ⟨[], st1.emitted ++ st1.out_buffer
            ++ corrEvents config isTty cursor_pos newPosRes, st1.flushCount + 1⟩⟩ := by
  cases hg : (!config.absolute_offset && isTty) with
  | false =>
    simp [printTail, corrEvents, hg, finishFlush, print_buffer, List.getD]
  | true =>
    cases cursor_pos with
    | none => simp [printTail, corrEvents, hg, finishFlush, print_buffer, List.getD]
    | some p =>
      have hnp : newPosRes.isSome = true := hpos hg rfl
      cases newPosRes with
      | none => simp at hnp
      | some q =>
        by_cases hlt : q.2 < p.2
        · simp [printTail, corrEvents, hg, hlt, finishFlush, print_buffer, List.getD,
            PrintState.push, List.append_assoc]
        · simp [printTail, corrEvents, hg, hlt, finishFlush, print_buffer, List.getD]

theorem psAfterRows_flat (img : Image) (config : Config) : ∀ m y ps,
    (psAfterRows img config ps y m).emitted ++ (psAfterRows img config ps y m).out_buffer
        = ps.emitted ++ ps.out_buffer ++ evtsRowsFrom img config y m
      ∧ (psAfterRows img config ps y m).flushCount = ps.flushCount + m := by
  intro m
  induction m with
  | zero => intro y ps; simp [psAfterRows, evtsRowsFrom]
  | succ m ih =>
    intro y ps
    have h1 : psAfterRows img config ps y (m + 1)
        = psAfterRows img config (flushOk (ps.push (rowEvts img config y))) (y + 2) m := rfl
    obtain ⟨he, hc⟩ := ih (y + 2) (flushOk (ps.push (rowEvts img config y)))
    constructor
    · rw [h1, he]
      simp [flushOk, PrintState.push, evtsRowsFrom, List.append_assoc]
    · rw [h1, hc]
      simp [flushOk, PrintState.push]
      omega

theorem printBody_shape (img : Image) (config : Config) (isTty : Bool)
    (cursor_pos newPosRes : Option (Nat × Nat)) (st : PrintState)
    (hw : 0 < img.width)
    (hpos : (!config.absolute_offset && isTty) = true →
      cursor_pos.isSome = true → newPosRes.isSome = true) :
    printBody img config isTty cursor_pos newPosRes [] st
      = ⟨none, ⟨[],
          st.emitted ++ st.out_buffer
            ++ evtsRowsFrom img config 0 (img.height / 2)
            ++ (if img.height % 2 = 1 then lastRowEvts img config (2 * (img.height / 2)) else [])
            ++ corrEvents config isTty cursor_pos newPosRes,
          st.flushCount + img.height / 2 + 1⟩⟩ := by
  obtain ⟨hflat, hcount⟩ := psAfterRows_flat img config (img.height / 2) 0 st
  rcases Nat.mod_two_eq_zero_or_one img.height with heven | hodd
  · rw [printBody_step img config isTty cursor_pos newPosRes [] st _
      (runLoop_all_even config img hw heven st)]
    simp only [List.isEmpty_nil, if_true]
    rw [printTail_shape _ _ _ _ _ hpos]
    have hif : (if img.height % 2 = 1
        then lastRowEvts img config (2 * (img.height / 2)) else []) = [] := by
      rw [heven]; simp
    rw [hif]
    congr 2
    · rw [hflat]
      simp
    · omega
  · rw [printBody_step img config isTty cursor_pos newPosRes [] st _
      (runLoop_all_odd config img hw hodd st)]
    have hne := topCellsFrom_isEmpty_false img config (2 * (img.height / 2)) 0 img.width hw
    simp only [hne, Bool.false_eq_true, if_false]
    rw [printTail_shape _ _ _ _ _ hpos]
    have hif : (if img.height % 2 = 1
        then lastRowEvts img config (2 * (img.height / 2)) else [])
        = lastRowEvts img config (2 * (img.height / 2)) := by
      rw [hodd]
      simp
    rw [hif]
    congr 2
    · simp only [fill_out_buffer, lastRowEvts]
      simp only [← List.append_assoc]
      rw [hflat]
    · show (psAfterRows img config st 0 (img.height / 2)).flushCount + 1
        = st.flushCount + img.height / 2 + 1
      omega

theorem print_ok_shape (img : Image) (config : Config) (isTty : Bool)
    (posRes newPosRes : Option (Nat × Nat))
    (hw : 0 < img.width)
    (hcfg : config.absolute_offset = true → 0 ≤ config.y)
    (hpos : (!config.absolute_offset && isTty) = true →
      posRes.isSome = true → newPosRes.isSome = true) :
    print img config isTty posRes newPosRes []
      = ⟨none, ⟨[], fullEmitted img config isTty posRes newPosRes,
          img.height / 2 + 1⟩⟩ := by
  cases habs : config.absolute_offset with
  | true =>
    have hy : 0 ≤ config.y := hcfg habs
    simp only [print]
    simp [habs, hy]
    rw [printBody_shape img config isTty none newPosRes _ hw
      (by intro hg; rw [habs] at hg; simp at hg)]
    simp [fullEmitted, setupEvents, corrEvents, habs, PrintState.push]
  | false =>
    cases ht : isTty with
    | false =>
      by_cases hy : config.y < 0
      · simp only [print]
        simp [habs, ht, hy]
        rw [printBody_shape img config false none newPosRes _ hw
          (by intro hg; simp at hg)]
        simp [fullEmitted, setupEvents, corrEvents, habs, ht, hy, PrintState.push]
      · simp only [print]
        simp [habs, ht, hy]
        rw [printBody_shape img config false none newPosRes _ hw
          (by intro hg; simp at hg)]
        simp [fullEmitted, setupEvents, corrEvents, habs, ht, hy, PrintState.push]
    | true =>
      rw [ht] at hpos
      by_cases hy : config.y < 0
      · simp only [print]
        simp [habs, ht, hy]
        rw [printBody_shape img config true posRes newPosRes _ hw hpos]
        simp [fullEmitted, setupEvents, habs, hy, PrintState.push]
      · simp only [print]
        simp [habs, ht, hy]
        rw [printBody_shape img config true posRes newPosRes _ hw hpos]
        simp [fullEmitted, setupEvents, habs, hy, PrintState.push]

/-! ## Counting line terminators and style resets -/

theorem countP_cellEvents_newline (b : Bool) (c : ColorSpec) :
    (cellEvents b c).countP isNewline = 0 := by
  obtain ⟨cf, cb⟩ := c
  cases b <;> cases cf <;> cases cb <;>
    simp [cellEvents, isNewline, List.countP_cons]

theorem countP_cellEvents_reset (b : Bool) (c : ColorSpec) :
    (cellEvents b c).countP isReset = 0 := by
  obtain ⟨cf, cb⟩ := c
  cases b <;> cases cf <;> cases cb <;>
    simp [cellEvents, isReset, List.countP_cons]

theorem countP_cellsRender (b : Bool) (p : OutEvent → Bool)
    (h : ∀ c, (cellEvents b c).countP p = 0) :
    ∀ cells : List ColorSpec, (cellsRender b cells).countP p = 0 := by
  intro cells
  induction cells with
  | nil => rfl
  | cons c rest ih =>
    show (cellEvents b c ++ cellsRender b rest).countP p = 0
    rw [List.countP_append, h c, ih]

theorem countP_rowEvts_newline (img : Image) (config : Config) (y : Nat) :
    (rowEvts img config y).countP isNewline = 1 := by
  unfold rowEvts
  rw [List.countP_append, List.countP_append]
  rw [countP_cellsRender false isNewline (countP_cellEvents_newline false) _]
  by_cases hx : 0 < config.x <;>
    simp [hx, isNewline, List.countP_cons]

theorem countP_rowEvts_reset (img : Image) (config : Config) (y : Nat) :
    (rowEvts img config y).countP isReset = 1 := by
  unfold rowEvts
  rw [List.countP_append, List.countP_append]
  rw [countP_cellsRender false isReset (countP_cellEvents_reset false) _]
  by_cases hx : 0 < config.x <;>
    simp [hx, isReset, List.countP_cons]

theorem countP_evtsRowsFrom_newline (img : Image) (config : Config) :
    ∀ m y, (evtsRowsFrom img config y m).countP isNewline = m := by
  intro m
  induction m with
  | zero => intro y; rfl
  | succ m ih =>
    intro y
    show (rowEvts img config y ++ evtsRowsFrom img config (y + 2) m).countP isNewline = m + 1
    rw [List.countP_append, countP_rowEvts_newline, ih (y + 2)]
    omega

theorem countP_evtsRowsFrom_reset (img : Image) (config : Config) :
    ∀ m y, (evtsRowsFrom img config y m).countP isReset = m := by
  intro m
  induction m with
  | zero => intro y; rfl
  | succ m ih =>
    intro y
    show (rowEvts img config y ++ evtsRowsFrom img config (y + 2) m).countP isReset = m + 1
    rw [List.countP_append, countP_rowEvts_reset, ih (y + 2)]
    omega

theorem countP_lastRowEvts_newline (img : Image) (config : Config) (r : Nat) :
    (lastRowEvts img config r).countP isNewline = 1 := by
  unfold lastRowEvts
  rw [List.countP_append]
  rw [countP_cellsRender true isNewline (countP_cellEvents_newline true) _]
  simp [isNewline, List.countP_cons]

theorem countP_lastRowEvts_reset (img : Image) (config : Config) (r : Nat) :
    (lastRowEvts img config r).countP isReset = 1 := by
  unfold lastRowEvts
  rw [List.countP_append]
  rw [countP_cellsRender true isReset (countP_cellEvents_reset true) _]
  simp [isReset, List.countP_cons]

theorem countP_replicate_newline (n : Nat) :
    (List.replicate n OutEvent.newline).countP isNewline = n := by
  induction n with
  | zero => rfl
  | succ n ih => simp [List.replicate_succ, List.countP_cons, ih, isNewline]

theorem countP_replicate_newline_reset (n : Nat) :
    (List.replicate n OutEvent.newline).countP isReset = 0 := by
  induction n with
  | zero => rfl
  | succ n ih => simp [List.replicate_succ, List.countP_cons, ih, isReset]

theorem countP_setupEvents_newline (config : Config) :
    (setupEvents config).countP isNewline
      = if config.absolute_offset = false ∧ 0 ≤ config.y then config.y.toNat else 0 := by
  unfold setupEvents
  cases habs : config.absolute_offset with
  | true => simp [isNewline, List.countP_cons]
  | false =>
    by_cases hy : config.y < 0
    · have hy2 : ¬ 0 ≤ config.y := by omega
      simp [hy, hy2, isNewline, List.countP_cons]
    · have hy2 : 0 ≤ config.y := by omega
      simp [hy, hy2, countP_replicate_newline]

theorem countP_setupEvents_reset (config : Config) :
    (setupEvents config).countP isReset = 0 := by
  unfold setupEvents
  cases habs : config.absolute_offset with
  | true => simp [isReset, List.countP_cons]
  | false =>
    by_cases hy : config.y < 0
    · simp [hy, isReset, List.countP_cons]
    · simp [hy, countP_replicate_newline_reset]

theorem countP_corrEvents (config : Config) (isTty : Bool)
    (posRes newPosRes : Option (Nat × Nat)) (p : OutEvent → Bool)
    (h : ∀ n, p (OutEvent.moveToNextLine n) = false) :
    (corrEvents config isTty posRes newPosRes).countP p = 0 := by
  unfold corrEvents
  cases hg : (!config.absolute_offset && isTty) with
  | false => rfl
  | true =>
    cases posRes with
    | none => rfl
    | some q =>
      cases newPosRes with
      | none => rfl
      | some r =>
        by_cases hlt : r.2 < q.2 <;> simp [hlt, List.countP_cons, h]

/-! ## Claim C1 -/

/-- Claim C1: for every image of height `H` (and positive width, the
documented input invariant), a successful `print` call emits exactly
`ceil(H / 2)` terminal rows.  A terminal row is the glyph/skip sequence
terminated by the line terminator written when a row buffer is flushed;
each such flush ends with exactly one style reset followed by one line
terminator, so the row count is both the number of reset events and the
number of line terminators beyond the `y`-offset blank lines, which are
not image rows. -/
theorem c1_terminal_row_count (img : Image) (config : Config) (isTty : Bool)
    (posRes newPosRes : Option (Nat × Nat))
    (hw : 0 < img.width)
    (hcfg : config.absolute_offset = true → 0 ≤ config.y)
    (hpos : (!config.absolute_offset && isTty) = true →
      posRes.isSome = true → newPosRes.isSome = true) :
    (print img config isTty posRes newPosRes []).res = none
    ∧ (print img config isTty posRes newPosRes []).st.emitted.countP isReset
        = (img.height + 1) / 2
    ∧ (print img config isTty posRes newPosRes []).st.emitted.countP isNewline
        = (if config.absolute_offset = false ∧ 0 ≤ config.y then config.y.toNat else 0)
          + (img.height + 1) / 2 := by
  rw [print_ok_shape img config isTty posRes newPosRes hw hcfg hpos]
  refine ⟨rfl, ?_, ?_⟩
  · show (fullEmitted img config isTty posRes newPosRes).countP isReset = _
    unfold fullEmitted
    rw [List.countP_append, List.countP_append, List.countP_append]
    rw [countP_setupEvents_reset, countP_evtsRowsFrom_reset,
      countP_corrEvents _ _ _ _ _ (fun n => rfl)]
    rcases Nat.mod_two_eq_zero_or_one img.height with hp | hp <;>
      simp [hp, countP_lastRowEvts_reset] <;> omega
  · show (fullEmitted img config isTty posRes newPosRes).countP isNewline = _
    unfold fullEmitted
    rw [List.countP_append, List.countP_append, List.countP_append]
    rw [countP_setupEvents_newline, countP_evtsRowsFrom_newline,
      countP_corrEvents _ _ _ _ _ (fun n => rfl)]
    rcases Nat.mod_two_eq_zero_or_one img.height with hp | hp <;>
      simp [hp, countP_lastRowEvts_newline] <;> omega

/-- Witness for C1 at a concrete 1x2 image: one terminal row. -/
theorem c1_witness :
    (print imgRed1x2 cfgPlain false none none []).res = none
    ∧ (print imgRed1x2 cfgPlain false none none []).st.emitted.countP isReset
        = (imgRed1x2.height + 1) / 2
    ∧ (print imgRed1x2 cfgPlain false none none []).st.emitted.countP isNewline
        = (if cfgPlain.absolute_offset = false ∧ 0 ≤ cfgPlain.y
            then cfgPlain.y.toNat else 0)
          + (imgRed1x2.height + 1) / 2 :=
  c1_terminal_row_count imgRed1x2 cfgPlain false none none
    (by decide) (by decide) (by decide)

/-! ## Claim C2 -/

/-- Counterexample to C2 as stated: for a cell whose background (top
pixel) colour is present and whose foreground (bottom pixel) is absent,
the renderer writes the UPPER half glyph, not the lower one. -/
theorem c2_counterexample :
    cellEvents false ⟨none, some (Color.rgb 200 10 10)⟩
        = [OutEvent.setColor ⟨some (Color.rgb 200 10 10), none⟩,
           OutEvent.write UPPER_HALF_BLOCK]
      ∧ UPPER_HALF_BLOCK ≠ LOWER_HALF_BLOCK :=
  ⟨rfl, by decide⟩

/-- Claim C2 (amended): for a cell of a non-last terminal row, if the
background (top pixel) is present and the foreground (bottom pixel) is
absent the renderer draws the UPPER-half glyph with the terminal
foreground set to the background colour; if the background is absent and
the foreground present it draws the LOWER-half glyph with the terminal
foreground set to the foreground colour.  (The spec's table has the two
glyphs swapped.) -/
theorem c2_single_color_glyphs (c : Color) :
    cellEvents false ⟨none, some c⟩
        = [OutEvent.setColor ⟨some c, none⟩, OutEvent.write UPPER_HALF_BLOCK]
      ∧ cellEvents false ⟨some c, none⟩
        = [OutEvent.setColor ⟨some c, none⟩, OutEvent.write LOWER_HALF_BLOCK] :=
  ⟨rfl, rfl⟩

/-! ## Claim C3 -/

/-- Claim C3 fails on the code: with `x = 5` and a 1x1 (odd-height)
image, the final terminal row is emitted with no cursor-right move at
all, while the same configuration on a 1x2 image does prefix its row with
`MoveRight 5`.  The `MoveRight(config.x)` is only executed on the
completed-row path of the loop, never before the odd-height last-row
flush. -/
theorem c3_missing_x_offset_on_last_row :
    (print imgRed1x1 cfgX5 false none none []).st.emitted
        = [OutEvent.setColor ⟨some (Color.rgb 255 0 0), none⟩,
           OutEvent.write UPPER_HALF_BLOCK,
           OutEvent.setColor ⟨none, none⟩, OutEvent.newline]
      ∧ (∀ e ∈ (print imgRed1x1 cfgX5 false none none []).st.emitted,
          e ≠ OutEvent.moveRight 5)
      ∧ (print imgRed1x2 cfgX5 false none none []).st.emitted.head?
        = some (OutEvent.moveRight 5) := by
  refine ⟨by decide, by decide, by decide⟩

/-! ## Claim C5 -/

/-- Claim C5: with `absolute_offset = true` and `y < 0`, `print` returns
the configuration error before producing any output: nothing was emitted,
nothing is buffered, and no flush was even attempted. -/
theorem c5_negative_absolute_y_error (img : Image) (config : Config) (isTty : Bool)
    (posRes newPosRes : Option (Nat × Nat)) (fr : List (Option IOErrorKind))
    (habs : config.absolute_offset = true) (hy : config.y < 0) :
    print img config isTty posRes newPosRes fr
      = ⟨some (ViuError.InvalidConfiguration
          ("absolute_offset is true but y offset is negative")), ⟨[], [], 0⟩⟩ := by
  have hy' : ¬ 0 ≤ config.y := by omega
  simp [print, habs, hy']

/-- Witness for C5 at the concrete rejected configuration. -/
theorem c5_witness :
    print imgRed1x1 cfgAbsNeg false none none []
      = ⟨some (ViuError.InvalidConfiguration
          ("absolute_offset is true but y offset is negative")), ⟨[], [], 0⟩⟩ :=
  c5_negative_absolute_y_error imgRed1x1 cfgAbsNeg false none none []
    (by decide) (by decide)

/-! ## Claim C6 -/

/-- Claim C6: a flush that fails with `BrokenPipe` returns success (and
is not propagated), while a flush failing with any other I/O error kind
propagates that error to the caller. -/
theorem c6_broken_pipe_policy (st : PrintState) (k : IOErrorKind) :
    print_buffer (some IOErrorKind.brokenPipe) st
        = .ok { st with flushCount := st.flushCount + 1 }
      ∧ (k ≠ IOErrorKind.brokenPipe →
          print_buffer (some k) st = .error (ViuError.ioError k)) := by
  constructor
  · rfl
  · intro hk
    cases k with
    | brokenPipe => exact absurd rfl hk
    | other n => rfl

/-- Witness for C6 at a concrete state and a concrete non-broken-pipe
error kind. -/
theorem c6_witness :
    print_buffer (some IOErrorKind.brokenPipe) ⟨[], [], 0⟩ = .ok ⟨[], [], 1⟩
      ∧ print_buffer (some (IOErrorKind.other 7)) ⟨[], [], 0⟩
        = .error (ViuError.ioError (IOErrorKind.other 7)) :=
  ⟨(c6_broken_pipe_policy ⟨[], [], 0⟩ (IOErrorKind.other 7)).1,
   (c6_broken_pipe_policy ⟨[], [], 0⟩ (IOErrorKind.other 7)).2 (by decide)⟩

/-! ## Claim C8 -/

/-- Counterexample to C8 as stated: a flush hitting `BrokenPipe` returns
success but does NOT clear the output buffer — the buffer still holds its
events afterwards (the `out_buffer.clear()` only runs in the `Ok` arm of
`print_buffer`). -/
theorem c8_counterexample :
    print_buffer (some IOErrorKind.brokenPipe) ⟨[OutEvent.newline], [], 0⟩
        = .ok ⟨[OutEvent.newline], [], 1⟩
      ∧ ([OutEvent.newline] : List OutEvent) ≠ [] :=
  ⟨rfl, by decide⟩

/-- Claim C8 (amended): the output buffer is flushed at the end of every
completed terminal row and once more after the pixel loop — a successful
run performs `height / 2 + 1` flushes and ends with an empty buffer — and
every successful flush clears the buffer; a broken-pipe flush, however,
reports success while leaving the buffer contents in place. -/
theorem c8_flush_per_row (img : Image) (config : Config) (isTty : Bool)
    (posRes newPosRes : Option (Nat × Nat)) (st : PrintState)
    (hw : 0 < img.width)
    (hcfg : config.absolute_offset = true → 0 ≤ config.y)
    (hpos : (!config.absolute_offset && isTty) = true →
      posRes.isSome = true → newPosRes.isSome = true) :
    print_buffer none st = .ok ⟨[], st.emitted ++ st.out_buffer, st.flushCount + 1⟩
    ∧ (print img config isTty posRes newPosRes []).st.flushCount = img.height / 2 + 1
    ∧ (print img config isTty posRes newPosRes []).st.out_buffer = [] := by
  refine ⟨rfl, ?_, ?_⟩
  · rw [print_ok_shape img config isTty posRes newPosRes hw hcfg hpos]
  · rw [print_ok_shape img config isTty posRes newPosRes hw hcfg hpos]

/-- Witness for C8 at a concrete image and state. -/
theorem c8_witness :
    print_buffer none ⟨[OutEvent.newline], [], 3⟩
        = .ok ⟨[], [] ++ [OutEvent.newline], 3 + 1⟩
    ∧ (print imgRed1x2 cfgPlain false none none []).st.flushCount
        = imgRed1x2.height / 2 + 1
    ∧ (print imgRed1x2 cfgPlain false none none []).st.out_buffer = [] :=
  c8_flush_per_row imgRed1x2 cfgPlain false none none ⟨[OutEvent.newline], [], 3⟩
    (by decide) (by decide) (by decide)

/-! ## Claim C9 -/

/-- Claim C9: in non-absolute mode in an interactive session, when the
post-render cursor row `ny` is above the retained pre-render row `py`,
`print` emits a move-down of exactly `py - ny` as the very last event
before the final flush, restoring the invariant that the cursor is never
above where it started. -/
theorem c9_cursor_restore (img : Image) (config : Config)
    (px py nx ny : Nat)
    (hw : 0 < img.width) (habs : config.absolute_offset = false)
    (hlt : ny < py) :
    (print img config true (some (px, py)) (some (nx, ny)) []).res = none
    ∧ (print img config true (some (px, py)) (some (nx, ny)) []).st.emitted.getLast?
        = some (OutEvent.moveToNextLine (py - ny)) := by
  rw [print_ok_shape img config true (some (px, py)) (some (nx, ny)) hw
    (by intro h; rw [habs] at h; cases h) (by intro _ _; rfl)]
  refine ⟨rfl, ?_⟩
  show (fullEmitted img config true (some (px, py)) (some (nx, ny))).getLast? = _
  have hc : corrEvents config true (some (px, py)) (some (nx, ny))
      = [OutEvent.moveToNextLine (py - ny)] := by
    simp [corrEvents, habs, hlt]
  unfold fullEmitted
  rw [hc]
  exact List.getLast?_concat _

/-- Witness for C9 at a concrete image and cursor positions. -/
theorem c9_witness :
    (print imgRed1x2 cfgPlain true (some (0, 5)) (some (0, 3)) []).res = none
    ∧ (print imgRed1x2 cfgPlain true (some (0, 5)) (some (0, 3)) []).st.emitted.getLast?
        = some (OutEvent.moveToNextLine (5 - 3)) :=
  c9_cursor_restore imgRed1x2 cfgPlain 0 5 0 3 (by decide) (by decide) (by decide)

/-! ## Splitting an event stream into terminal rows (for C7) -/

theorem lastAcc_append : ∀ (xs : List OutEvent) (acc ys : List OutEvent),
    lastAcc acc (xs ++ ys) = lastAcc (lastAcc acc xs) ys := by
  intro xs
  induction xs with
  | nil => intro acc ys; rfl
  | cons e rest ih =>
    intro acc ys
    cases e <;> simp [lastAcc, ih]

theorem rowsOfAux_split : ∀ (xs : List OutEvent) (acc ys : List OutEvent),
    rowsOfAux acc (xs ++ OutEvent.newline :: ys)
      = rowsOfAux acc xs ++ lastAcc acc xs :: rowsOfAux [] ys := by
  intro xs
  induction xs with
  | nil => intro acc ys; rfl
  | cons e rest ih =>
    intro acc ys
    cases e <;> simp [rowsOfAux, lastAcc, ih]

theorem rowsOfAux_no_newline : ∀ (ys : List OutEvent),
    (∀ e ∈ ys, isNewline e = false) → ∀ acc, rowsOfAux acc ys = [] := by
  intro ys
  induction ys with
  | nil => intro _ acc; rfl
  | cons e rest ih =>
    intro h acc
    have he := h e (by simp)
    have hrest : ∀ x ∈ rest, isNewline x = false := fun x hx => h x (by simp [hx])
    cases e
    case newline => simp [isNewline] at he
    all_goals simp [rowsOfAux, ih hrest]

theorem lastAcc_no_newline : ∀ (ys : List OutEvent),
    (∀ e ∈ ys, isNewline e = false) → ∀ acc, lastAcc acc ys = acc ++ ys := by
  intro ys
  induction ys with
  | nil => intro _ acc; simp [lastAcc]
  | cons e rest ih =>
    intro h acc
    have he := h e (by simp)
    have hrest : ∀ x ∈ rest, isNewline x = false := fun x hx => h x (by simp [hx])
    cases e
    case newline => simp [isNewline] at he
    all_goals simp [lastAcc, ih hrest]

theorem lastAcc_replicate_newline (n : Nat) :
    lastAcc [] (List.replicate n OutEvent.newline) = [] := by
  induction n with
  | zero => rfl
  | succ n ih => simpa [List.replicate_succ, lastAcc] using ih

theorem evtsRowsFrom_ends_newline (img : Image) (config : Config) :
    ∀ m y, 0 < m →
      ∃ zs, evtsRowsFrom img config y m = zs ++ [OutEvent.newline] := by
  intro m
  induction m with
  | zero => intro y h; exact absurd h (by omega)
  | succ m ih =>
    intro y _
    rcases Nat.eq_zero_or_pos m with h0 | hpos
    · subst h0
      refine ⟨(if 0 < config.x then [OutEvent.moveRight config.x] else [])
        ++ cellsRender false (pairCellsFrom img config y 0 img.width)
        ++ [OutEvent.setColor ⟨none, none⟩], ?_⟩
      simp [evtsRowsFrom, rowEvts, List.append_assoc]
    · obtain ⟨zs, hzs⟩ := ih (y + 2) hpos
      refine ⟨rowEvts img config y ++ zs, ?_⟩
      show rowEvts img config y ++ evtsRowsFrom img config (y + 2) m = _
      rw [hzs, List.append_assoc]

theorem mem_cellsRender_newline_false (b : Bool) (cells : List ColorSpec) :
    ∀ e ∈ cellsRender b cells, isNewline e = false := by
  intro e he
  have h0 := countP_cellsRender b isNewline (countP_cellEvents_newline b) cells
  have h1 := List.countP_eq_zero.mp h0 e he
  simpa using h1

theorem mem_corrEvents_newline_false (config : Config) (isTty : Bool)
    (posRes newPosRes : Option (Nat × Nat)) :
    ∀ e ∈ corrEvents config isTty posRes newPosRes, isNewline e = false := by
  intro e he
  have h0 := countP_corrEvents config isTty posRes newPosRes isNewline (fun n => rfl)
  have h1 := List.countP_eq_zero.mp h0 e he
  simpa using h1

theorem mem_cellsRender_true_lastRowOk (cells : List ColorSpec) :
    ∀ e ∈ cellsRender true cells, lastRowOk e = true := by
  induction cells with
  | nil => intro e he; simp [cellsRender] at he
  | cons c rest ih =>
    intro e he
    rw [show cellsRender true (c :: rest)
        = cellEvents true c ++ cellsRender true rest from rfl] at he
    rcases List.mem_append.mp he with h1 | h2
    · obtain ⟨cf, cb⟩ := c
      cases cb with
      | none =>
        simp [cellEvents] at h1
        subst h1
        rfl
      | some bg =>
        simp [cellEvents] at h1
        rcases h1 with h | h <;> subst h <;> simp [lastRowOk]
    · exact ih e h2

theorem lastAcc_setupEvents_ok (config : Config) :
    ∀ e ∈ lastAcc [] (setupEvents config), lastRowOk e = true := by
  unfold setupEvents
  cases habs : config.absolute_offset with
  | true =>
    simp only [if_true]
    show ∀ e ∈ lastAcc [] [OutEvent.moveTo 0 config.y.toNat], lastRowOk e = true
    intro e he
    simp [lastAcc] at he
    subst he
    rfl
  | false =>
    by_cases hy : config.y < 0
    · simp only [hy, if_true, if_false]
      show ∀ e ∈ lastAcc [] [OutEvent.moveToPreviousLine (-config.y).toNat],
        lastRowOk e = true
      intro e he
      simp [lastAcc] at he
      subst he
      rfl
    · simp only [hy, if_false]
      show ∀ e ∈ lastAcc [] (List.replicate config.y.toNat OutEvent.newline),
        lastRowOk e = true
      rw [lastAcc_replicate_newline]
      intro e he
      simp at he

/-! ## Claim C7 -/

/-- Claim C7: for an odd-height image (and positive width), the final
emitted terminal row — the last line-terminated chunk of the output —
consists only of events satisfying `lastRowOk`: every glyph written in it
is the upper-half glyph (never the lower half) and every colour set in it
carries no background colour (never the combined background+foreground
form); the remaining events are cursor skips/moves and the trailing style
reset. -/
theorem c7_odd_height_last_row (img : Image) (config : Config) (isTty : Bool)
    (posRes newPosRes : Option (Nat × Nat))
    (hw : 0 < img.width) (hodd : img.height % 2 = 1)
    (hcfg : config.absolute_offset = true → 0 ≤ config.y)
    (hpos : (!config.absolute_offset && isTty) = true →
      posRes.isSome = true → newPosRes.isSome = true) :
    (print img config isTty posRes newPosRes []).res = none
    ∧ rowsOf (print img config isTty posRes newPosRes []).st.emitted ≠ []
    ∧ ((rowsOf (print img config isTty posRes newPosRes []).st.emitted).getLastD []).all
        lastRowOk = true := by
  rw [print_ok_shape img config isTty posRes newPosRes hw hcfg hpos]
  have hE : fullEmitted img config isTty posRes newPosRes
      = ((setupEvents config ++ evtsRowsFrom img config 0 (img.height / 2))
          ++ (cellsRender true (topCellsFrom img config (2 * (img.height / 2)) 0 img.width)
              ++ [OutEvent.setColor ⟨none, none⟩]))
        ++ OutEvent.newline :: corrEvents config isTty posRes newPosRes := by
    unfold fullEmitted lastRowEvts
    rw [hodd]
    simp [List.append_assoc]
  have hrows : rowsOf (fullEmitted img config isTty posRes newPosRes)
      = rowsOfAux [] ((setupEvents config ++ evtsRowsFrom img config 0 (img.height / 2))
          ++ (cellsRender true (topCellsFrom img config (2 * (img.height / 2)) 0 img.width)
              ++ [OutEvent.setColor ⟨none, none⟩]))
        ++ [lastAcc [] ((setupEvents config ++ evtsRowsFrom img config 0 (img.height / 2))
          ++ (cellsRender true (topCellsFrom img config (2 * (img.height / 2)) 0 img.width)
              ++ [OutEvent.setColor ⟨none, none⟩]))] := by
    show rowsOfAux [] (fullEmitted img config isTty posRes newPosRes) = _
    rw [hE, rowsOfAux_split,
      rowsOfAux_no_newline _ (mem_corrEvents_newline_false config isTty posRes newPosRes) []]
  have hCnl : ∀ e ∈ cellsRender true
      (topCellsFrom img config (2 * (img.height / 2)) 0 img.width)
      ++ [OutEvent.setColor (⟨none, none⟩ : ColorSpec)], isNewline e = false := by
    intro e he
    rcases List.mem_append.mp he with h1 | h2
    · exact mem_cellsRender_newline_false true _ e h1
    · simp at h2
      subst h2
      rfl
  refine ⟨rfl, ?_, ?_⟩
  · show rowsOf (fullEmitted img config isTty posRes newPosRes) ≠ []
    rw [hrows]
    simp
  · show ((rowsOf (fullEmitted img config isTty posRes newPosRes)).getLastD []).all
      lastRowOk = true
    rw [hrows]
    rw [show ∀ (X : List (List OutEvent)) (a : List OutEvent), (X ++ [a]).getLastD [] = a
      from fun X a => by simp [List.getLastD_eq_getLast?, List.getLast?_concat]]
    rw [lastAcc_append, lastAcc_no_newline _ hCnl]
    rw [List.all_append]
    have hlastA : (lastAcc []
        (setupEvents config ++ evtsRowsFrom img config 0 (img.height / 2))).all
        lastRowOk = true := by
      rw [lastAcc_append]
      rcases Nat.eq_zero_or_pos (img.height / 2) with h0 | hpos2
      · rw [h0]
        show (lastAcc (lastAcc [] (setupEvents config)) []).all lastRowOk = true
        rw [show ∀ acc : List OutEvent, lastAcc acc [] = acc from fun acc => rfl]
        exact List.all_eq_true.mpr (lastAcc_setupEvents_ok config)
      · obtain ⟨zs, hzs⟩ := evtsRowsFrom_ends_newline img config (img.height / 2) 0 hpos2
        rw [hzs, lastAcc_append]
        rfl
    rw [hlastA]
    have hCok : (cellsRender true
        (topCellsFrom img config (2 * (img.height / 2)) 0 img.width)
        ++ [OutEvent.setColor (⟨none, none⟩ : ColorSpec)]).all lastRowOk = true := by
      rw [List.all_append]
      have h1 := List.all_eq_true.mpr (mem_cellsRender_true_lastRowOk
        (topCellsFrom img config (2 * (img.height / 2)) 0 img.width))
      rw [h1]
      rfl
    rw [hCok]
    rfl

/-- Witness for C7 at a concrete odd-height (1x1) image. -/
theorem c7_witness :
    (print imgRed1x1 cfgPlain false none none []).res = none
    ∧ rowsOf (print imgRed1x1 cfgPlain false none none []).st.emitted ≠ []
    ∧ ((rowsOf (print imgRed1x1 cfgPlain false none none []).st.emitted).getLastD []).all
        lastRowOk = true :=
  c7_odd_height_last_row imgRed1x1 cfgPlain false none none
    (by decide) (by decide) (by decide) (by decide)

/-! ## Fully transparent images (for C4) -/

theorem resolve_transparent_none (config : Config) (hT : config.transparent = true)
    (r c x y : Nat) (d : Rgba) (ha : d.a = 0) :
    resolvePixelColor config r c (x, y, d) = none := by
  simp [resolvePixelColor, is_pixel_transparent, ha, hT]

theorem pairCellsFrom_blank (img : Image) (config : Config) (y : Nat)
    (hT : config.transparent = true) :
    ∀ n j, (∀ x, j ≤ x → x < j + n →
        (img.pixelAt x y).a = 0 ∧ (img.pixelAt x (y + 1)).a = 0) →
      pairCellsFrom img config y j n = List.replicate n (⟨none, none⟩ : ColorSpec) := by
  intro n
  induction n with
  | zero => intro j _; rfl
  | succ n ih =>
    intro j h
    have hj := h j (by omega) (by omega)
    show pairCell img config y j :: pairCellsFrom img config y (j + 1) n = _
    rw [List.replicate_succ]
    congr 1
    · unfold pairCell
      rw [resolve_transparent_none config hT _ _ _ _ _ hj.2,
          resolve_transparent_none config hT _ _ _ _ _ hj.1]
    · exact ih (j + 1) (fun x h1 h2 => h x (by omega) (by omega))

theorem topCellsFrom_blank (img : Image) (config : Config) (r : Nat)
    (hT : config.transparent = true) :
    ∀ n j, (∀ x, j ≤ x → x < j + n → (img.pixelAt x r).a = 0) →
      topCellsFrom img config r j n = List.replicate n (⟨none, none⟩ : ColorSpec) := by
  intro n
  induction n with
  | zero => intro j _; rfl
  | succ n ih =>
    intro j h
    show topCell img config r j :: topCellsFrom img config r (j + 1) n = _
    rw [List.replicate_succ]
    congr 1
    · unfold topCell
      rw [resolve_transparent_none config hT _ _ _ _ _ (h j (by omega) (by omega))]
    · exact ih (j + 1) (fun x h1 h2 => h x (by omega) (by omega))

theorem cellsRender_blank (b : Bool) :
    ∀ n, cellsRender b (List.replicate n (⟨none, none⟩ : ColorSpec))
      = List.replicate n (OutEvent.moveRight 1) := by
  intro n
  induction n with
  | zero => rfl
  | succ n ih =>
    rw [List.replicate_succ, List.replicate_succ]
    show cellEvents b ⟨none, none⟩ ++ cellsRender b (List.replicate n ⟨none, none⟩) = _
    rw [ih]
    cases b <;> rfl

theorem mem_setupEvents_noColor (config : Config) :
    ∀ e ∈ setupEvents config, isColorSet e = false ∧ isGlyph e = false := by
  unfold setupEvents
  cases habs : config.absolute_offset with
  | true =>
    show ∀ e ∈ [OutEvent.moveTo 0 config.y.toNat], _
    intro e he
    simp at he
    subst he
    exact ⟨rfl, rfl⟩
  | false =>
    by_cases hy : config.y < 0
    · simp only [hy, if_true]
      show ∀ e ∈ [OutEvent.moveToPreviousLine (-config.y).toNat], _
      intro e he
      simp at he
      subst he
      exact ⟨rfl, rfl⟩
    · simp only [hy, if_false]
      show ∀ e ∈ List.replicate config.y.toNat OutEvent.newline, _
      intro e he
      rw [List.eq_of_mem_replicate he]
      exact ⟨rfl, rfl⟩

theorem mem_corrEvents_noColor (config : Config) (isTty : Bool)
    (posRes newPosRes : Option (Nat × Nat)) :
    ∀ e ∈ corrEvents config isTty posRes newPosRes,
      isColorSet e = false ∧ isGlyph e = false := by
  intro e he
  constructor
  · have h0 := countP_corrEvents config isTty posRes newPosRes isColorSet (fun n => rfl)
    have h1 := List.countP_eq_zero.mp h0 e he
    simpa using h1
  · have h0 := countP_corrEvents config isTty posRes newPosRes isGlyph (fun n => rfl)
    have h1 := List.countP_eq_zero.mp h0 e he
    simpa using h1

theorem evtsRowsFrom_blank_mem (img : Image) (config : Config)
    (hT : config.transparent = true) :
    ∀ m y, (∀ x y', x < img.width → y ≤ y' → y' < y + 2 * m →
        (img.pixelAt x y').a = 0) →
      ∀ e ∈ evtsRowsFrom img config y m, isColorSet e = false ∧ isGlyph e = false := by
  intro m
  induction m with
  | zero => intro y _ e he; simp [evtsRowsFrom] at he
  | succ m ih =>
    intro y h e he
    rw [show evtsRowsFrom img config y (m + 1)
        = rowEvts img config y ++ evtsRowsFrom img config (y + 2) m from rfl] at he
    rcases List.mem_append.mp he with h1 | h2
    · have hcells : pairCellsFrom img config y 0 img.width
          = List.replicate img.width (⟨none, none⟩ : ColorSpec) :=
        pairCellsFrom_blank img config y hT img.width 0
          (fun x hx1 hx2 => ⟨h x y (by omega) (by omega) (by omega),
            h x (y + 1) (by omega) (by omega) (by omega)⟩)
      unfold rowEvts at h1
      rw [hcells, cellsRender_blank] at h1
      rcases List.mem_append.mp h1 with h3 | h4
      · rcases List.mem_append.mp h3 with h5 | h6
        · by_cases hx : 0 < config.x
          · rw [if_pos hx] at h5
            simp at h5
            subst h5
            exact ⟨rfl, rfl⟩
          · rw [if_neg hx] at h5
            simp at h5
        · rw [List.eq_of_mem_replicate h6]
          exact ⟨rfl, rfl⟩
      · simp at h4
        rcases h4 with h | h <;> subst h <;> exact ⟨rfl, rfl⟩
    · exact ih (y + 2) (fun x y' hx h1' h2' => h x y' hx (by omega) (by omega)) e h2

theorem mem_lastRowEvts_blank (img : Image) (config : Config) (r : Nat)
    (hT : config.transparent = true)
    (h : ∀ x, x < img.width → (img.pixelAt x r).a = 0) :
    ∀ e ∈ lastRowEvts img config r, isColorSet e = false ∧ isGlyph e = false := by
  intro e he
  unfold lastRowEvts at he
  rw [topCellsFrom_blank img config r hT img.width 0 (fun x h1 h2 => h x (by omega)),
      cellsRender_blank] at he
  rcases List.mem_append.mp he with h1 | h2
  · rw [List.eq_of_mem_replicate h1]
    exact ⟨rfl, rfl⟩
  · simp at h2
    rcases h2 with h | h <;> subst h <;> exact ⟨rfl, rfl⟩

/-! ## Claim C4 -/

/-- Counterexample to C4 as stated: for a fully transparent 1x1 image
under `transparent = true`, the output is NOT just cursor-right skips and
line terminators — the per-row `clear_printer` still performs a
`set_color` call (with the empty spec, i.e. a style reset), so a
`set_color` operation occurs in the emitted stream. -/
theorem c4_counterexample :
    (print imgClear1x1 cfgTransparent false none none []).st.emitted
        = [OutEvent.moveRight 1, OutEvent.setColor ⟨none, none⟩, OutEvent.newline]
      ∧ ((print imgClear1x1 cfgTransparent false none none []).st.emitted.any
          isSetColorOp) = true
      ∧ ((print imgClear1x1 cfgTransparent false none none []).st.emitted.all
          (fun e => isCursorRight e || isNewline e)) = false := by
  refine ⟨by decide, by decide, by decide⟩

/-- Claim C4 (amended): if `transparent` is true and every pixel has
alpha 0, no colour-carrying `set_color` occurs and no glyph is drawn:
besides the offset cursor-positioning moves and the per-row trailing
style reset (an empty `set_color`), only cursor-right skips and line
terminators are emitted. -/
theorem c4_transparent_no_color (img : Image) (config : Config) (isTty : Bool)
    (posRes newPosRes : Option (Nat × Nat))
    (hw : 0 < img.width)
    (hT : config.transparent = true)
    (hA : ∀ x y, x < img.width → y < img.height → (img.pixelAt x y).a = 0)
    (hcfg : config.absolute_offset = true → 0 ≤ config.y)
    (hpos : (!config.absolute_offset && isTty) = true →
      posRes.isSome = true → newPosRes.isSome = true) :
    (print img config isTty posRes newPosRes []).res = none
    ∧ ∀ e ∈ (print img config isTty posRes newPosRes []).st.emitted,
        isColorSet e = false ∧ isGlyph e = false := by
  rw [print_ok_shape img config isTty posRes newPosRes hw hcfg hpos]
  refine ⟨rfl, ?_⟩
  show ∀ e ∈ fullEmitted img config isTty posRes newPosRes, _
  intro e he
  unfold fullEmitted at he
  rcases List.mem_append.mp he with h1 | hcorr
  · rcases List.mem_append.mp h1 with h2 | htail
    · rcases List.mem_append.mp h2 with hsetup | hrows
      · exact mem_setupEvents_noColor config e hsetup
      · refine evtsRowsFrom_blank_mem img config hT (img.height / 2) 0 ?_ e hrows
        intro x y' hx _ h2'
        exact hA x y' hx (by omega)
    · by_cases hp : img.height % 2 = 1
      · rw [if_pos hp] at htail
        refine mem_lastRowEvts_blank img config (2 * (img.height / 2)) hT ?_ e htail
        intro x hx
        exact hA x (2 * (img.height / 2)) hx (by omega)
      · rw [if_neg hp] at htail
        simp at htail
  · exact mem_corrEvents_noColor config isTty posRes newPosRes e hcorr

/-- Witness for C4 at the concrete fully transparent 1x1 image: no
colour-carrying `set_color` and no glyphs in the output. -/
theorem c4_witness :
    (print imgClear1x1 cfgTransparent false none none []).res = none
    ∧ (print imgClear1x1 cfgTransparent false none none []).st.emitted.countP
        isColorSet = 0
    ∧ (print imgClear1x1 cfgTransparent false none none []).st.emitted.countP
        isGlyph = 0 := by
  have h := c4_transparent_no_color imgClear1x1 cfgTransparent false none none
    (by decide) (by decide) (fun x y _ _ => rfl) (by decide) (by decide)
  refine ⟨h.1, ?_, ?_⟩ <;> rw [List.countP_eq_zero] <;> intro e he <;>
    simp [(h.2 e he).1, (h.2 e he).2]

/-! ## Alpha-channel congruence (for C10) -/

theorem resolvePixelColor_congr (config : Config) (x y x' y' : Nat) (d1 d2 : Rgba)
    (hr : d1.r = d2.r) (hgr : d1.g = d2.g) (hb : d1.b = d2.b)
    (ha : d1.a = 0 ↔ d2.a = 0) :
    ∀ r c, resolvePixelColor config r c (x, y, d1)
      = resolvePixelColor config r c (x', y', d2) := by
  intro r c
  have hba : (d1.a == 0) = (d2.a == 0) := by
    by_cases hh : d1.a = 0
    · have h2 : d2.a = 0 := ha.mp hh
      simp [hh, h2]
    · have h2 : ¬ d2.a = 0 := fun hc => hh (ha.mpr hc)
      simp [hh, h2]
  simp [resolvePixelColor, is_pixel_transparent, get_color_from_pixel,
    hba, hr, hgr, hb]

theorem processPixel_congr (config : Config) (fr : List (Option IOErrorKind))
    (width : Nat) (st : LoopState) (p q : Nat × Nat × Rgba)
    (h : ∀ r c, resolvePixelColor config r c p = resolvePixelColor config r c q) :
    processPixel config fr width st p = processPixel config fr width st q := by
  unfold processPixel
  rw [h st.curr_row_px st.curr_col_px]

theorem runLoop_congr (config : Config) (fr : List (Option IOErrorKind))
    (width : Nat) {l1 l2 : List (Nat × Nat × Rgba)}
    (h : List.Forall₂ (fun p q => ∀ r c,
      resolvePixelColor config r c p = resolvePixelColor config r c q) l1 l2) :
    ∀ st, runLoop config fr width st l1 = runLoop config fr width st l2 := by
  induction h with
  | nil => intro st; rfl
  | cons hpq htl ih =>
    intro st
    show runLoop config fr width st (_ :: _) = runLoop config fr width st (_ :: _)
    simp only [runLoop]
    rw [processPixel_congr config fr width st _ _ hpq]
    cases processPixel config fr width st _ with
    | error e => rfl
    | ok st' => exact ih st'

theorem pixelsFrom_congr (img1 img2 : Image) (config : Config) (y : Nat) :
    ∀ n j, (∀ x, j ≤ x → x < j + n →
        (img1.pixelAt x y).r = (img2.pixelAt x y).r
        ∧ (img1.pixelAt x y).g = (img2.pixelAt x y).g
        ∧ (img1.pixelAt x y).b = (img2.pixelAt x y).b
        ∧ ((img1.pixelAt x y).a = 0 ↔ (img2.pixelAt x y).a = 0)) →
      List.Forall₂ (fun p q => ∀ r c,
        resolvePixelColor config r c p = resolvePixelColor config r c q)
        (pixelsFrom img1 y j n) (pixelsFrom img2 y j n) := by
  intro n
  induction n with
  | zero => intro j _; exact List.Forall₂.nil
  | succ n ih =>
    intro j h
    have hj := h j (by omega) (by omega)
    exact List.Forall₂.cons
      (resolvePixelColor_congr config j y j y _ _ hj.1 hj.2.1 hj.2.2.1 hj.2.2.2)
      (ih (j + 1) (fun x h1 h2 => h x (by omega) (by omega)))

theorem rowsFrom_congr (img1 img2 : Image) (config : Config)
    (hW : img1.width = img2.width) :
    ∀ k y0, (∀ x y, x < img1.width → y0 ≤ y → y < y0 + k →
        (img1.pixelAt x y).r = (img2.pixelAt x y).r
        ∧ (img1.pixelAt x y).g = (img2.pixelAt x y).g
        ∧ (img1.pixelAt x y).b = (img2.pixelAt x y).b
        ∧ ((img1.pixelAt x y).a = 0 ↔ (img2.pixelAt x y).a = 0)) →
      List.Forall₂ (fun p q => ∀ r c,
        resolvePixelColor config r c p = resolvePixelColor config r c q)
        (rowsFrom img1 y0 k) (rowsFrom img2 y0 k) := by
  intro k
  induction k with
  | zero => intro y0 _; exact List.Forall₂.nil
  | succ k ih =>
    intro y0 h
    show List.Forall₂ _
      (pixelsFrom img1 y0 0 img1.width ++ rowsFrom img1 (y0 + 1) k)
      (pixelsFrom img2 y0 0 img2.width ++ rowsFrom img2 (y0 + 1) k)
    rw [← hW]
    exact List.rel_append
      (pixelsFrom_congr img1 img2 config y0 img1.width 0
        (fun x h1 h2 => h x y0 (by omega) (by omega) (by omega)))
      (ih (y0 + 1) (fun x y hx h1 h2 => h x y hx (by omega) (by omega)))

/-! ## Claim C10 -/

/-- Claim C10: pixel opacity is binary at the public interface.  Two
images of the same dimensions whose pixels agree on the RGB channels and
on WHETHER the alpha is zero (the alphas themselves may differ, e.g. 1
versus 255) produce identical `print` outcomes in every environment: the
rendered colour of a nonzero-alpha pixel depends only on its RGB channels
and the truecolor flag. -/
theorem c10_alpha_binary (img1 img2 : Image) (config : Config) (isTty : Bool)
    (posRes newPosRes : Option (Nat × Nat)) (fr : List (Option IOErrorKind))
    (hW : img1.width = img2.width) (hH : img1.height = img2.height)
    (hpx : ∀ x y, x < img1.width → y < img1.height →
      (img1.pixelAt x y).r = (img2.pixelAt x y).r
      ∧ (img1.pixelAt x y).g = (img2.pixelAt x y).g
      ∧ (img1.pixelAt x y).b = (img2.pixelAt x y).b
      ∧ ((img1.pixelAt x y).a = 0 ↔ (img2.pixelAt x y).a = 0)) :
    print img1 config isTty posRes newPosRes fr
      = print img2 config isTty posRes newPosRes fr := by
  have hf : List.Forall₂ (fun p q => ∀ r c,
      resolvePixelColor config r c p = resolvePixelColor config r c q)
      img1.pixels img2.pixels := by
    show List.Forall₂ _ (rowsFrom img1 0 img1.height) (rowsFrom img2 0 img2.height)
    rw [← hH]
    exact rowsFrom_congr img1 img2 config hW img1.height 0
      (fun x y hx _ h2 => hpx x y hx (by omega))
  have hloop : ∀ st : PrintState,
      runLoop config fr img1.width ⟨0, 0, [], Mode.top, st⟩ img1.pixels
        = runLoop config fr img2.width ⟨0, 0, [], Mode.top, st⟩ img2.pixels := by
    intro st
    rw [← hW]
    exact runLoop_congr config fr img1.width hf _
  have hbody : ∀ (ct np : Option (Nat × Nat)) (st : PrintState),
      printBody img1 config isTty ct np fr st = printBody img2 config isTty ct np fr st := by
    intro ct np st
    unfold printBody
    rw [hloop st]
  simp only [print, hbody]

/-- Witness for C10: a 1x1 image with alpha 1 versus alpha 255 (same
RGB) renders identically. -/
theorem c10_witness :
    print (imgAlpha 1) cfgPlain false none none []
      = print (imgAlpha 255) cfgPlain false none none [] :=
  c10_alpha_binary (imgAlpha 1) (imgAlpha 255) cfgPlain false none none []
    rfl rfl (fun x y _ _ => ⟨rfl, rfl, rfl,
      ⟨fun h => by simp [imgAlpha] at h, fun h => by simp [imgAlpha] at h⟩⟩)

end Viuer
